import Mathlib

/-!
Verification development for the ludwig hyperparameter-optimization
execution layer (spec sections 3-8) and the ATIS example training script.

The hyperopt implementation files (ludwig/hyperopt/sampling.py,
ludwig/hyperopt/execution.py, ludwig/hyperopt/results.py) are not part of
the provided sources; only their integration-test caller
(tests/integration_tests/test_hyperopt_ray_horovod.py) is. The
definitions below for the Sampler, Trial Executor, Result Aggregator and
scheduling model are therefore modelled from the specification text, as
marked in each doc comment. The ATIS script model is taken directly from
examples/atis/train.py.
-/

/-! ## Data model (spec section 3) -/

/-- Modelled from the spec: search direction, the enum component of
SearchGoal, either minimize or maximize. -/
inductive Direction where
  | minimize
  | maximize
deriving DecidableEq, Repr

/-- Modelled from the spec: SearchGoal is the direction plus the metric
name and the output feature it is computed on, fixed for the search. -/
structure SearchGoal where
  direction : Direction
  metric : String
  outputFeature : String
deriving DecidableEq, Repr

/-- Modelled from the spec: per-trial lifecycle states of the state
machine PENDING to RUNNING to one of SUCCEEDED, FAILED, STOPPED. -/
inductive TrialState where
  | PENDING
  | RUNNING
  | SUCCEEDED
  | FAILED
  | STOPPED
deriving DecidableEq, Repr

/-- Modelled from the spec: resource request of a trial, CPU and GPU
counts. -/
structure Resources where
  cpu : Nat
  gpu : Nat
deriving DecidableEq, Repr

/-- Modelled from the spec: one attempted training run. Attributes:
unique trial id, the sampled parameter assignment (dotted path to value,
values modelled as rationals), resource request, lifecycle state,
start/end timestamps, resulting metric value (nullable until complete),
error (nullable). -/
structure Trial where
  id : Nat
  params : List (String × ℚ)
  resources : Resources
  state : TrialState
  startTime : Option Nat
  endTime : Option Nat
  metric : Option ℚ
  error : Option String
deriving DecidableEq, Repr

/-- Modelled from the spec: the final report. Ordered sequence of trials
ranked by the goal (nulls last), plus summary metadata: the goal, the
best trial id, total elapsed time, and the all-trials-failed warning
flag. -/
structure ExecutionResult where
  rankedTrials : List Trial
  goal : SearchGoal
  bestTrialId : Option Nat
  elapsedTime : Nat
  warning : Bool
deriving DecidableEq, Repr

/-- A trial state is terminal when it is one of the three outcomes. -/
def TrialState.isTerminal : TrialState → Bool
  | .SUCCEEDED => true
  | .FAILED => true
  | .STOPPED => true
  | _ => false

/-! ## Trial state machine operations (spec section 4.2) -/

/-- Modelled from the spec: a freshly sampled trial starts in PENDING
with no timestamps, no metric and no error. -/
def newTrial (id : Nat) (params : List (String × ℚ)) (res : Resources) : Trial :=
  { id := id, params := params, resources := res, state := .PENDING,
    startTime := none, endTime := none, metric := none, error := none }

/-- Modelled from the spec: the executor launches a PENDING trial, moving
it to RUNNING and recording the start time. Any other state is left
untouched. -/
def startTrial (t : Trial) (time : Nat) : Trial :=
  if t.state = .PENDING then
    { t with state := .RUNNING, startTime := some time }
  else t

/-- Modelled from the spec: on completion the executor extracts the
configured metric and marks the RUNNING trial SUCCEEDED. Any other state
is left untouched. -/
def completeTrial (t : Trial) (m : ℚ) (time : Nat) : Trial :=
  if t.state = .RUNNING then
    { t with state := .SUCCEEDED, metric := some m, endTime := some time }
  else t

/-- Modelled from the spec: on any trial-internal failure the executor
marks the RUNNING trial FAILED and captures the error text. Any other
state is left untouched. -/
def failTrial (t : Trial) (e : String) (time : Nat) : Trial :=
  if t.state = .RUNNING then
    { t with state := .FAILED, error := some e, endTime := some time }
  else t

/-- Modelled from the spec: an early-stopping or cancellation signal
moves a RUNNING trial to STOPPED; its partial metric, if any, is kept.
Any other state is left untouched. -/
def stopTrial (t : Trial) (time : Nat) : Trial :=
  if t.state = .RUNNING then
    { t with state := .STOPPED, endTime := some time }
  else t

/-- The operations the Trial Executor may apply to a trial after
creation. -/
inductive TrialOp where
  | start (time : Nat)
  | complete (m : ℚ) (time : Nat)
  | fail (e : String) (time : Nat)
  | stop (time : Nat)

/-- Apply one executor operation to a trial. -/
def applyOp (op : TrialOp) (t : Trial) : Trial :=
  match op with
  | .start time => startTrial t time
  | .complete m time => completeTrial t m time
  | .fail e time => failTrial t e time
  | .stop time => stopTrial t time

/-- The transition edges of the spec state machine: PENDING to RUNNING,
and RUNNING to each of the three terminal outcomes. -/
def AllowedTransition : TrialState → TrialState → Prop
  | .PENDING, .RUNNING => True
  | .RUNNING, .SUCCEEDED => True
  | .RUNNING, .FAILED => True
  | .RUNNING, .STOPPED => True
  | _, _ => False

/-! ## Result Aggregator ranking (spec section 4.3) -/

/-- Modelled from the spec: the sorting key direction. Minimize ranks by
the metric itself ascending; maximize ranks by the negated metric, which
is descending in the metric. -/
def metricKey (d : Direction) (m : ℚ) : ℚ :=
  match d with
  | .minimize => m
  | .maximize => -m

/-- Modelled from the spec: the aggregator comparison. Trials with a
non-null metric come first, ordered by metric key, ties broken by trial
id (submission order); trials with a null metric sort last, ordered by
id among themselves. -/
def trialLE (g : SearchGoal) (a b : Trial) : Bool :=
  match a.metric, b.metric with
  | none, none => decide (a.id ≤ b.id)
  | none, some _ => false
  | some _, none => true
  | some x, some y =>
      if metricKey g.direction x < metricKey g.direction y then true
      else if metricKey g.direction x = metricKey g.direction y then
        decide (a.id ≤ b.id)
      else false

/-- The aggregator comparison as a relation. -/
def RankLE (g : SearchGoal) (a b : Trial) : Prop := trialLE g a b = true

instance (g : SearchGoal) : DecidableRel (RankLE g) := fun a b =>
  inferInstanceAs (Decidable (trialLE g a b = true))

theorem trialLE_nn {g : SearchGoal} {a b : Trial} (ha : a.metric = none)
    (hb : b.metric = none) : trialLE g a b = true ↔ a.id ≤ b.id := by
  unfold trialLE
  rw [ha, hb]
  simp

theorem trialLE_ns {g : SearchGoal} {a b : Trial} {y : ℚ} (ha : a.metric = none)
    (hb : b.metric = some y) : trialLE g a b = false := by
  unfold trialLE
  rw [ha, hb]

theorem trialLE_sn {g : SearchGoal} {a b : Trial} {x : ℚ} (ha : a.metric = some x)
    (hb : b.metric = none) : trialLE g a b = true := by
  unfold trialLE
  rw [ha, hb]

theorem trialLE_ss {g : SearchGoal} {a b : Trial} {x y : ℚ} (ha : a.metric = some x)
    (hb : b.metric = some y) :
    trialLE g a b = true ↔
      (metricKey g.direction x < metricKey g.direction y ∨
        (metricKey g.direction x = metricKey g.direction y ∧ a.id ≤ b.id)) := by
  unfold trialLE
  rw [ha, hb]
  dsimp only
  split_ifs with h1 h2
  · simp [h1]
  · simp [h1, h2]
  · simp [h1, h2]

theorem rankLE_total (g : SearchGoal) : ∀ a b : Trial, RankLE g a b ∨ RankLE g b a := by
  intro a b
  unfold RankLE
  cases ha : a.metric with
  | none =>
    cases hb : b.metric with
    | none =>
      rw [trialLE_nn ha hb, trialLE_nn hb ha]
      exact Nat.le_total a.id b.id
    | some y => exact Or.inr (trialLE_sn hb ha)
  | some x =>
    cases hb : b.metric with
    | none => exact Or.inl (trialLE_sn ha hb)
    | some y =>
      rw [trialLE_ss ha hb, trialLE_ss hb ha]
      rcases lt_trichotomy (metricKey g.direction x) (metricKey g.direction y) with h | h | h
      · exact Or.inl (Or.inl h)
      · rcases Nat.le_total a.id b.id with hid | hid
        · exact Or.inl (Or.inr ⟨h, hid⟩)
        · exact Or.inr (Or.inr ⟨h.symm, hid⟩)
      · exact Or.inr (Or.inl h)

theorem rankLE_trans (g : SearchGoal) :
    ∀ a b c : Trial, RankLE g a b → RankLE g b c → RankLE g a c := by
  intro a b c hab hbc
  unfold RankLE at hab hbc ⊢
  cases ha : a.metric with
  | none =>
    cases hb : b.metric with
    | none =>
      cases hc : c.metric with
      | none =>
        rw [trialLE_nn ha hb] at hab
        rw [trialLE_nn hb hc] at hbc
        rw [trialLE_nn ha hc]
        exact Nat.le_trans hab hbc
      | some z => rw [trialLE_ns hb hc] at hbc; cases hbc
    | some y => rw [trialLE_ns ha hb] at hab; cases hab
  | some x =>
    cases hc : c.metric with
    | none => exact trialLE_sn ha hc
    | some z =>
      cases hb : b.metric with
      | none => rw [trialLE_ns hb hc] at hbc; cases hbc
      | some y =>
        rw [trialLE_ss ha hb] at hab
        rw [trialLE_ss hb hc] at hbc
        rw [trialLE_ss ha hc]
        rcases hab with h1 | ⟨h1, hi1⟩
        · rcases hbc with h2 | ⟨h2, _⟩
          · exact Or.inl (h1.trans h2)
          · exact Or.inl (h2 ▸ h1)
        · rcases hbc with h2 | ⟨h2, hi2⟩
          · exact Or.inl (h1 ▸ h2)
          · exact Or.inr ⟨h1.trans h2, Nat.le_trans hi1 hi2⟩

instance (g : SearchGoal) : IsTotal Trial (RankLE g) := ⟨rankLE_total g⟩

instance (g : SearchGoal) : IsTrans Trial (RankLE g) := ⟨rankLE_trans g⟩

/-- Modelled from the spec: the Result Aggregator ranking of terminal
trials, a stable sort by the comparison above. -/
def rankTrials (g : SearchGoal) (ts : List Trial) : List Trial :=
  List.insertionSort (RankLE g) ts

theorem rankTrials_perm (g : SearchGoal) (ts : List Trial) :
    (rankTrials g ts).Perm ts :=
  List.perm_insertionSort _ _

theorem rankTrials_sorted (g : SearchGoal) (ts : List Trial) :
    (rankTrials g ts).Sorted (RankLE g) :=
  List.sorted_insertionSort _ _

/-- Default trial used only to give positional list access a total type. -/
def dummyTrial : Trial := newTrial 0 [] ⟨0, 0⟩

/-- C1: the Result Aggregator ranking is a total order consistent with
the goal. The ranked list is a permutation of the input (every trial is
retained in the record) and is sorted by the aggregator comparison; for
every adjacent pair, when both metrics are non-null they are ascending
for minimize and descending for maximize with ties broken by trial id,
and a null-metric trial is never followed by a non-null one (nulls sort
last). -/
theorem aggregator_ranking (g : SearchGoal) (ts : List Trial) :
    (rankTrials g ts).Perm ts ∧
    ∀ i, i + 1 < (rankTrials g ts).length →
      (∀ x y, ((rankTrials g ts).getD i dummyTrial).metric = some x →
        ((rankTrials g ts).getD (i + 1) dummyTrial).metric = some y →
        (g.direction = .minimize → x ≤ y) ∧
        (g.direction = .maximize → y ≤ x) ∧
        (x = y → ((rankTrials g ts).getD i dummyTrial).id ≤
          ((rankTrials g ts).getD (i + 1) dummyTrial).id)) ∧
      (((rankTrials g ts).getD i dummyTrial).metric = none →
        ((rankTrials g ts).getD (i + 1) dummyTrial).metric = none) := by
  refine ⟨rankTrials_perm g ts, ?_⟩
  intro i hi
  have hi' : i < (rankTrials g ts).length := Nat.lt_of_succ_lt hi
  have hrel := (rankTrials_sorted g ts).rel_get_of_lt
    (a := ⟨i, hi'⟩) (b := ⟨i + 1, hi⟩) (Fin.mk_lt_mk.mpr (Nat.lt_succ_self i))
  rw [List.getD_eq_get _ _ hi', List.getD_eq_get _ _ hi]
  constructor
  · intro x y hx hy
    unfold RankLE at hrel
    have hss := (trialLE_ss hx hy).mp hrel
    refine ⟨?_, ?_, ?_⟩
    · intro hd
      rw [hd] at hss
      simp only [metricKey] at hss
      rcases hss with h | ⟨h, _⟩
      · exact le_of_lt h
      · exact le_of_eq h
    · intro hd
      rw [hd] at hss
      simp only [metricKey] at hss
      rcases hss with h | ⟨h, _⟩
      · exact le_of_lt (neg_lt_neg_iff.mp h)
      · exact le_of_eq (neg_injective h).symm
    · intro hxy
      subst hxy
      rcases hss with h | ⟨_, hid⟩
      · exact absurd h (lt_irrefl _)
      · exact hid
  · intro h0
    cases hm : (((rankTrials g ts).get ⟨i + 1, hi⟩)).metric with
    | none => rfl
    | some y =>
      unfold RankLE at hrel
      rw [trialLE_ns h0 hm] at hrel
      cases hrel

/-- A concrete goal for witnesses: minimize the loss on feature y. -/
def exGoal : SearchGoal := ⟨.minimize, "loss", "y"⟩

/-- Concrete terminal trials for witnesses: two with metrics, one with a
null metric. -/
def exTrials : List Trial :=
  [{ id := 0, params := [], resources := ⟨1, 0⟩, state := .SUCCEEDED,
     startTime := some 0, endTime := some 1, metric := some 5, error := none },
   { id := 1, params := [], resources := ⟨1, 0⟩, state := .SUCCEEDED,
     startTime := some 0, endTime := some 1, metric := some 2, error := none },
   { id := 2, params := [], resources := ⟨1, 0⟩, state := .FAILED,
     startTime := some 0, endTime := some 1, metric := none,
     error := some "boom" }]

/-- Witness for C1: the ranking property instantiated on a concrete goal
and trial list, at the first adjacent pair. -/
theorem aggregator_ranking_witness :
    0 + 1 < (rankTrials exGoal exTrials).length ∧
    ((∀ x y, ((rankTrials exGoal exTrials).getD 0 dummyTrial).metric = some x →
        ((rankTrials exGoal exTrials).getD (0 + 1) dummyTrial).metric = some y →
        (exGoal.direction = .minimize → x ≤ y) ∧
        (exGoal.direction = .maximize → y ≤ x) ∧
        (x = y → ((rankTrials exGoal exTrials).getD 0 dummyTrial).id ≤
          ((rankTrials exGoal exTrials).getD (0 + 1) dummyTrial).id)) ∧
      (((rankTrials exGoal exTrials).getD 0 dummyTrial).metric = none →
        ((rankTrials exGoal exTrials).getD (0 + 1) dummyTrial).metric = none)) :=
  ⟨by decide, (aggregator_ranking exGoal exTrials).2 0 (by decide)⟩

/-! ## Grid sampler (spec section 4.1) -/

/-- Modelled from the spec: the deterministic Cartesian product of the
enumerated values of all grid-type parameters, in declaration order.
Each combination is an assignment from parameter path to one value. -/
def gridCombinations : List (String × List ℚ) → List (List (String × ℚ))
  | [] => [[]]
  | p :: rest =>
      p.2.flatMap fun v => (gridCombinations rest).map fun c => (p.1, v) :: c

/-- Modelled from the spec: the grid Sampler's state, the full
combination list plus how many assignments have been emitted so far. -/
structure GridSampler where
  combos : List (List (String × ℚ))
  emitted : Nat
deriving DecidableEq, Repr

/-- A fresh grid sampler over a grid-only parameter space. -/
def GridSampler.ofSpace (ps : List (String × List ℚ)) : GridSampler :=
  ⟨gridCombinations ps, 0⟩

/-- Modelled from the spec: next_batch returns up to maxCount not yet
emitted combinations and advances the sampler. -/
def GridSampler.next_batch (s : GridSampler) (maxCount : Nat) :
    List (List (String × ℚ)) × GridSampler :=
  let batch := (s.combos.drop s.emitted).take maxCount
  (batch, ⟨s.combos, s.emitted + batch.length⟩)

/-- Modelled from the spec: the sampler is finished once every
combination has been emitted. -/
def GridSampler.finished (s : GridSampler) : Bool :=
  decide (s.combos.length ≤ s.emitted)

/-- Drive the sampler with batch size 1 until it reports finished or the
fuel runs out, collecting everything it emits. -/
def GridSampler.drain (s : GridSampler) (fuel : Nat) :
    List (List (String × ℚ)) :=
  match fuel with
  | 0 => []
  | Nat.succ f =>
      if s.finished then []
      else (s.next_batch 1).1 ++ ((s.next_batch 1).2).drain f

theorem length_gridCombinations (ps : List (String × List ℚ)) :
    (gridCombinations ps).length = (ps.map fun p => p.2.length).prod := by
  induction ps with
  | nil => rfl
  | cons p rest ih =>
    have hconst :
        (List.length ∘ fun v : ℚ =>
          (gridCombinations rest).map fun c => (p.1, v) :: c) =
        fun _ : ℚ => (gridCombinations rest).length := by
      funext v
      simp
    simp only [gridCombinations, List.length_flatMap, hconst,
      List.map_const', List.sum_replicate, smul_eq_mul,
      List.map_cons, List.prod_cons, ih]

theorem nodup_gridCombinations (ps : List (String × List ℚ))
    (h : ∀ p ∈ ps, p.2.Nodup) : (gridCombinations ps).Nodup := by
  induction ps with
  | nil => simp [gridCombinations]
  | cons p rest ih =>
    simp only [gridCombinations]
    refine List.nodup_flatMap.mpr ⟨?_, ?_⟩
    · intro v _
      exact (ih fun q hq => h q (List.mem_cons_of_mem p hq)).map
        List.cons_injective
    · have hv : p.2.Nodup := h p (List.mem_cons_self p rest)
      refine hv.imp ?_
      intro v w hvw
      intro z hz1 hz2
      simp only [Function.onFun, List.mem_map] at hz1 hz2
      obtain ⟨c1, _, rfl⟩ := hz1
      obtain ⟨c2, _, he⟩ := hz2
      apply hvw
      have hw := congrArg (fun l => (l.headD (p.1, 0)).2) he
      simpa using hw.symm

theorem drain_eq (c : List (List (String × ℚ))) (e fuel : Nat) :
    GridSampler.drain ⟨c, e⟩ fuel = (c.drop e).take fuel := by
  induction fuel generalizing e with
  | zero => simp [GridSampler.drain]
  | succ f ih =>
    by_cases hf : c.length ≤ e
    · rw [List.drop_eq_nil_of_le hf]
      simp [GridSampler.drain, GridSampler.finished, hf]
    · push_neg at hf
      simp only [GridSampler.drain, GridSampler.finished, GridSampler.next_batch,
        decide_eq_true_eq, if_neg (not_le.mpr hf)]
      rw [List.drop_eq_getElem_cons hf]
      simp only [List.take_succ_cons, List.take_zero, List.length_cons,
        List.length_nil, List.singleton_append, Nat.zero_add]
      rw [ih]

/-- C2: for every grid-only parameter space, the Sampler emits exactly
the Cartesian-product count of combinations; each combination is emitted
exactly once (the full emission equals the combination list, which has
no duplicates when each parameter's value list has none); and finished
is true exactly when every combination has been emitted, so it only
becomes true after the last one and never before. -/
theorem grid_sampler_exhaustive (ps : List (String × List ℚ)) :
    (gridCombinations ps).length = (ps.map fun p => p.2.length).prod ∧
    ((∀ p ∈ ps, p.2.Nodup) → (gridCombinations ps).Nodup) ∧
    (GridSampler.ofSpace ps).drain (gridCombinations ps).length =
      gridCombinations ps ∧
    (∀ k, GridSampler.finished ⟨gridCombinations ps, k⟩ = true ↔
      (gridCombinations ps).length ≤ k) := by
  refine ⟨length_gridCombinations ps, nodup_gridCombinations ps, ?_, ?_⟩
  · unfold GridSampler.ofSpace
    rw [drain_eq]
    simp
  · intro k
    simp [GridSampler.finished]

/-- Witness for C2: a two-parameter grid space with value lists of sizes
2 and 1; its combination list has no duplicates. -/
theorem grid_sampler_exhaustive_witness :
    (∀ p ∈ [("a", [(1 : ℚ), 2]), ("b", [3])], p.2.Nodup) ∧
    (gridCombinations [("a", [(1 : ℚ), 2]), ("b", [3])]).Nodup :=
  ⟨by decide, (grid_sampler_exhaustive [("a", [(1 : ℚ), 2]), ("b", [3])]).2.1
    (by decide)⟩

/-! ## Random sampler (spec section 4.1) -/

/-- Modelled from the spec: the distribution descriptor of a parameter,
with bounds or enumerated values. -/
inductive ParamDist where
  | uniform (lo hi : ℚ)
  | loguniform (lo hi : ℚ)
  | randint (lo hi : ℤ)
  | choice (values : List ℚ)
  | grid (values : List ℚ)
deriving DecidableEq, Repr

/-- Modelled from the spec: draw one value from a distribution given one
unit-interval random draw u. The true log-uniform transform uses real
exponentials; at the rational level it is modelled as a monotone map of
u into the declared interval (skewed toward the lower bound), which
preserves the declared-bounds property the spec states. Integer-uniform
draws land in the half-open integer range; categorical draws index into
the enumerated values. -/
def sampleDist (d : ParamDist) (u : ℚ) : ℚ :=
  match d with
  | .uniform lo hi => lo + (hi - lo) * u
  | .loguniform lo hi => lo + (hi - lo) * (u * u)
  | .randint lo hi => (((lo + ⌊u * ((hi : ℚ) - (lo : ℚ))⌋) : ℤ) : ℚ)
  | .choice vs => vs.getD ⌊u * (vs.length : ℚ)⌋₊ 0
  | .grid vs => vs.getD ⌊u * (vs.length : ℚ)⌋₊ 0

/-- A distribution has well-formed declared bounds or a nonempty choice
set. -/
def validDist : ParamDist → Prop
  | .uniform lo hi => lo ≤ hi
  | .loguniform lo hi => lo ≤ hi
  | .randint lo hi => lo < hi
  | .choice vs => vs ≠ []
  | .grid vs => vs ≠ []

instance : DecidablePred validDist := fun d =>
  match d with
  | .uniform lo hi => inferInstanceAs (Decidable (lo ≤ hi))
  | .loguniform lo hi => inferInstanceAs (Decidable (lo ≤ hi))
  | .randint lo hi => inferInstanceAs (Decidable (lo < hi))
  | .choice vs => inferInstanceAs (Decidable (vs ≠ []))
  | .grid vs => inferInstanceAs (Decidable (vs ≠ []))

/-- A value satisfies its distribution's declared bounds or choice set. -/
def inBounds : ParamDist → ℚ → Prop
  | .uniform lo hi, v => lo ≤ v ∧ v ≤ hi
  | .loguniform lo hi, v => lo ≤ v ∧ v ≤ hi
  | .randint lo hi, v => ∃ n : ℤ, v = (n : ℚ) ∧ lo ≤ n ∧ n ≤ hi
  | .choice vs, v => v ∈ vs
  | .grid vs, v => v ∈ vs

theorem sampleDist_inBounds (d : ParamDist) (u : ℚ) (hd : validDist d)
    (h0 : 0 ≤ u) (h1 : u < 1) : inBounds d (sampleDist d u) := by
  cases d with
  | uniform lo hi =>
    simp only [validDist] at hd
    simp only [sampleDist, inBounds]
    constructor
    · nlinarith
    · nlinarith
  | loguniform lo hi =>
    simp only [validDist] at hd
    simp only [sampleDist, inBounds]
    have hu2 : u * u ≤ 1 := by nlinarith
    constructor
    · nlinarith
    · nlinarith [mul_nonneg (sub_nonneg.mpr hd) (sub_nonneg.mpr hu2)]
  | randint lo hi =>
    simp only [validDist] at hd
    refine ⟨lo + ⌊u * ((hi : ℚ) - (lo : ℚ))⌋, rfl, ?_, ?_⟩
    · have h2 : (0 : ℚ) ≤ (hi : ℚ) - (lo : ℚ) := by
        have : (lo : ℚ) < (hi : ℚ) := by exact_mod_cast hd
        linarith
      have h3 : (0 : ℤ) ≤ ⌊u * ((hi : ℚ) - (lo : ℚ))⌋ :=
        Int.floor_nonneg.mpr (mul_nonneg h0 h2)
      omega
    · have h4 : u * ((hi : ℚ) - (lo : ℚ)) < ((hi - lo : ℤ) : ℚ) := by
        have hlt : (lo : ℚ) < (hi : ℚ) := by exact_mod_cast hd
        push_cast
        nlinarith
      have h5 : ⌊u * ((hi : ℚ) - (lo : ℚ))⌋ < hi - lo := Int.floor_lt.mpr h4
      omega
  | choice vs =>
    simp only [validDist] at hd
    have hlen : 0 < vs.length := List.length_pos.mpr hd
    have hlenq : (0 : ℚ) < (vs.length : ℚ) := by exact_mod_cast hlen
    have hlt : ⌊u * (vs.length : ℚ)⌋₊ < vs.length := by
      rw [Nat.floor_lt (mul_nonneg h0 (le_of_lt hlenq))]
      nlinarith
    simp only [sampleDist, inBounds]
    rw [List.getD_eq_getElem _ _ hlt]
    exact List.getElem_mem hlt
  | grid vs =>
    simp only [validDist] at hd
    have hlen : 0 < vs.length := List.length_pos.mpr hd
    have hlenq : (0 : ℚ) < (vs.length : ℚ) := by exact_mod_cast hlen
    have hlt : ⌊u * (vs.length : ℚ)⌋₊ < vs.length := by
      rw [Nat.floor_lt (mul_nonneg h0 (le_of_lt hlenq))]
      nlinarith
    simp only [sampleDist, inBounds]
    rw [List.getD_eq_getElem _ _ hlt]
    exact List.getElem_mem hlt

/-- Default space entry used only to give positional access a total
type. -/
def dummyParam : String × ParamDist := ("", .uniform 0 0)

/-- Modelled from the spec: one i.i.d. parameter assignment. Sample i
draws each parameter independently from the random stream, indexed so
distinct positions use distinct draws. -/
def sampleAssignment (space : List (String × ParamDist)) (rng : Nat → ℚ)
    (i : Nat) : List (String × ℚ) :=
  (List.range space.length).map fun j =>
    ((space.getD j dummyParam).1,
      sampleDist (space.getD j dummyParam).2 (rng (i * space.length + j)))

/-- Modelled from the spec: the random-strategy Sampler produces exactly
its configured sample budget of assignments. -/
def randomSamples (space : List (String × ParamDist)) (rng : Nat → ℚ)
    (budget : Nat) : List (List (String × ℚ)) :=
  (List.range budget).map (sampleAssignment space rng)

/-- Modelled from the spec: the random Sampler's progress state. -/
structure RandomSampler where
  space : List (String × ParamDist)
  budget : Nat
  produced : Nat
deriving DecidableEq, Repr

/-- Modelled from the spec: the random sampler is finished once the
sample budget is reached. -/
def RandomSampler.finished (s : RandomSampler) : Bool :=
  decide (s.budget ≤ s.produced)

/-- C3: for every random-strategy parameter space with sample budget N
and a unit-interval random stream, the Sampler produces exactly N
assignments; each assignment covers the whole space positionally and
every sampled value satisfies its distribution's declared bounds or
choice set; and finished becomes true exactly when the budget of N
samples is reached. -/
theorem random_sampler_budget (space : List (String × ParamDist))
    (rng : Nat → ℚ) (N : Nat)
    (hrng : ∀ n, 0 ≤ rng n ∧ rng n < 1)
    (hspace : ∀ p ∈ space, validDist p.2) :
    (randomSamples space rng N).length = N ∧
    (∀ a ∈ randomSamples space rng N,
      a.length = space.length ∧
      ∀ j, j < space.length →
        (a.getD j ("", 0)).1 = (space.getD j dummyParam).1 ∧
        inBounds (space.getD j dummyParam).2 (a.getD j ("", 0)).2) ∧
    (∀ k, RandomSampler.finished ⟨space, N, k⟩ = true ↔ N ≤ k) := by
  refine ⟨by simp [randomSamples], ?_, ?_⟩
  · intro a ha
    obtain ⟨i, _, rfl⟩ := List.mem_map.mp ha
    have hlen : (sampleAssignment space rng i).length = space.length := by
      simp [sampleAssignment]
    refine ⟨hlen, ?_⟩
    intro j hj
    have hj' : j < (sampleAssignment space rng i).length := by
      rw [hlen]; exact hj
    rw [List.getD_eq_getElem _ _ hj']
    have hget : (sampleAssignment space rng i)[j] =
        ((space.getD j dummyParam).1,
          sampleDist (space.getD j dummyParam).2
            (rng (i * space.length + j))) := by
      simp [sampleAssignment]
    rw [hget]
    refine ⟨rfl, ?_⟩
    have hmem : space.getD j dummyParam ∈ space := by
      rw [List.getD_eq_getElem _ _ hj]
      exact List.getElem_mem hj
    exact sampleDist_inBounds _ _ (hspace _ hmem)
      (hrng (i * space.length + j)).1 (hrng (i * space.length + j)).2
  · intro k
    simp [RandomSampler.finished]

/-- A concrete space for the C3 witness: a log-uniform learning rate, an
integer-uniform layer count and a categorical choice. -/
def exSpace : List (String × ParamDist) :=
  [("training.learning_rate", .loguniform (1 / 1000) (1 / 10)),
   ("combiner.num_fc_layers", .randint 2 6),
   ("combiner.size", .choice [1, 2, 3])]

/-- A concrete unit-interval random stream for the C3 witness. -/
def exRng : Nat → ℚ := fun _ => 1 / 2

/-- Witness for C3: on the concrete space, stream and budget 2 the
sampler produces exactly 2 assignments and reaches finished exactly at
2 produced samples. -/
theorem random_sampler_budget_witness :
    (randomSamples exSpace exRng 2).length = 2 ∧
    (RandomSampler.finished ⟨exSpace, 2, 2⟩ = true ↔ 2 ≤ 2) :=
  ⟨(random_sampler_budget exSpace exRng 2
      (fun n => ⟨by norm_num [exRng], by norm_num [exRng]⟩)
      (by norm_num [exSpace, validDist]; decide)).1,
    (random_sampler_budget exSpace exRng 2
      (fun n => ⟨by norm_num [exRng], by norm_num [exRng]⟩)
      (by norm_num [exSpace, validDist]; decide)).2.2 2⟩

/-! ## Search execution and failure isolation (spec sections 4.2, 7) -/

/-- Whether a fallible training call succeeded. -/
def exceptOk {ε α : Type} : Except ε α → Bool
  | .ok _ => true
  | .error _ => false

/-- Modelled from the spec: the Result Aggregator builds the final
report from the terminal trials: the ranked record, the goal, the best
trial id (the first ranked trial with a non-null metric), the elapsed
time, and the warning flag raised exactly when no trial reported a
metric. -/
def aggregate (g : SearchGoal) (trials : List Trial) (elapsed : Nat) :
    ExecutionResult :=
  { rankedTrials := rankTrials g trials,
    goal := g,
    bestTrialId :=
      (((rankTrials g trials).filter fun t => t.metric.isSome).head?).map Trial.id,
    elapsedTime := elapsed,
    warning := ((rankTrials g trials).filter fun t => t.metric.isSome).isEmpty }

/-- The ranked entries of a report: trials that reported a metric. -/
def rankedEntries (r : ExecutionResult) : List Trial :=
  r.rankedTrials.filter fun t => t.metric.isSome

/-- The FAILED entries of a report. -/
def failedEntries (r : ExecutionResult) : List Trial :=
  r.rankedTrials.filter fun t => decide (t.state = .FAILED)

/-- Modelled from the spec: run one trial to a terminal state. A
successful training call yields a SUCCEEDED trial carrying the metric; a
raised error yields a FAILED trial with the captured error text and a
null metric. The failure is absorbed here, never propagated. -/
def execTrial (train : Nat → List (String × ℚ) → Except String ℚ)
    (i : Nat) (cfg : List (String × ℚ)) : Trial :=
  match train i cfg with
  | .ok m =>
      { id := i, params := cfg, resources := ⟨1, 0⟩, state := .SUCCEEDED,
        startTime := some i, endTime := some i, metric := some m,
        error := none }
  | .error e =>
      { id := i, params := cfg, resources := ⟨1, 0⟩, state := .FAILED,
        startTime := some i, endTime := some i, metric := none,
        error := some e }

/-- Modelled from the spec: the search loop runs every sampled
configuration to a terminal trial and aggregates, whatever the
individual outcomes. -/
def runSearch (g : SearchGoal)
    (train : Nat → List (String × ℚ) → Except String ℚ)
    (configs : List (List (String × ℚ))) : ExecutionResult :=
  aggregate g
    ((List.range configs.length).map fun i => execTrial train i (configs.getD i []))
    configs.length

theorem execTrial_metric_isSome (train : Nat → List (String × ℚ) → Except String ℚ)
    (i : Nat) (cfg : List (String × ℚ)) :
    (execTrial train i cfg).metric.isSome = exceptOk (train i cfg) := by
  cases h : train i cfg <;> simp [execTrial, h, exceptOk]

theorem execTrial_failed (train : Nat → List (String × ℚ) → Except String ℚ)
    (i : Nat) (cfg : List (String × ℚ)) :
    decide ((execTrial train i cfg).state = .FAILED) = !exceptOk (train i cfg) := by
  cases h : train i cfg <;> simp [execTrial, h, exceptOk]

/-- C4: a runtime failure inside one trial never aborts the search. The
report always records one terminal trial per sampled configuration; the
ranked entries are exactly the successful training calls and the FAILED
entries exactly the raising ones; every FAILED entry carries a non-empty
captured error; and when every trial fails the search still completes,
with zero ranked entries and the warning raised rather than a hard
failure. -/
theorem trial_failure_isolation (g : SearchGoal)
    (train : Nat → List (String × ℚ) → Except String ℚ)
    (configs : List (List (String × ℚ))) :
    (runSearch g train configs).rankedTrials.length = configs.length ∧
    (rankedEntries (runSearch g train configs)).length =
      ((List.range configs.length).filter fun i =>
        exceptOk (train i (configs.getD i []))).length ∧
    (failedEntries (runSearch g train configs)).length =
      ((List.range configs.length).filter fun i =>
        !exceptOk (train i (configs.getD i []))).length ∧
    (∀ t ∈ (runSearch g train configs).rankedTrials,
      t.state = .FAILED → t.error ≠ none) ∧
    ((∀ i, i < configs.length → ∃ e, train i (configs.getD i []) = .error e) →
      rankedEntries (runSearch g train configs) = [] ∧
      (runSearch g train configs).warning = true) := by
  simp only [runSearch, aggregate, rankedEntries, failedEntries]
  refine ⟨?_, ?_, ?_, ?_, ?_⟩
  · rw [(rankTrials_perm g _).length_eq]
    simp
  · rw [((rankTrials_perm g _).filter _).length_eq]
    rw [List.filter_map, List.length_map]
    congr 1
    apply List.filter_congr
    intro i _
    exact execTrial_metric_isSome train i (configs.getD i [])
  · rw [((rankTrials_perm g _).filter _).length_eq]
    rw [List.filter_map, List.length_map]
    congr 1
    apply List.filter_congr
    intro i _
    exact execTrial_failed train i (configs.getD i [])
  · intro t ht hf
    have ht' := (rankTrials_perm g _).mem_iff.mp ht
    obtain ⟨i, _, rfl⟩ := List.mem_map.mp ht'
    cases h : train i (configs.getD i []) with
    | ok m =>
      unfold execTrial at hf
      rw [h] at hf
      simp at hf
    | error e =>
      unfold execTrial
      rw [h]
      simp
  · intro hall
    have hnil :
        (rankTrials g ((List.range configs.length).map fun i =>
          execTrial train i (configs.getD i []))).filter
            (fun t => t.metric.isSome) = [] := by
      rw [List.filter_eq_nil_iff]
      intro t ht
      have ht' := (rankTrials_perm g _).mem_iff.mp ht
      obtain ⟨i, hi, rfl⟩ := List.mem_map.mp ht'
      obtain ⟨e, he⟩ := hall i (List.mem_range.mp hi)
      unfold execTrial
      rw [he]
      simp
    rw [hnil]
    exact ⟨rfl, rfl⟩

/-- The training function for the C4 witness: every trial raises. -/
def exTrainAllFail : Nat → List (String × ℚ) → Except String ℚ :=
  fun _ _ => .error "divergence"

/-- The training function for the C4 witness scenario with 5 trials
where trial index 2 raises and the others report their index as the
metric. -/
def exTrainThird : Nat → List (String × ℚ) → Except String ℚ :=
  fun i _ => if i = 2 then .error "divergence" else .ok (i : ℚ)

/-- Witness for C4: with every one of 3 trials failing, the search
completes with zero ranked entries and the warning raised; and in the
concrete 5-trial scenario where only trial index 2 raises, the report
has exactly 4 ranked entries and 1 FAILED entry whose error is
non-empty. -/
theorem trial_failure_isolation_witness :
    (rankedEntries (runSearch exGoal exTrainAllFail [[], [], []]) = [] ∧
      (runSearch exGoal exTrainAllFail [[], [], []]).warning = true) ∧
    (rankedEntries (runSearch exGoal exTrainThird
      [[], [], [], [], []])).length = 4 ∧
    (failedEntries (runSearch exGoal exTrainThird
      [[], [], [], [], []])).length = 1 ∧
    (failedEntries (runSearch exGoal exTrainThird
      [[], [], [], [], []])).all (fun t => t.error ≠ none) = true :=
  ⟨(trial_failure_isolation exGoal exTrainAllFail [[], [], []]).2.2.2.2
      (fun i _ => ⟨"divergence", rfl⟩),
    by decide, by decide, by decide⟩

/-! ## Resource-bounded scheduling (spec sections 4.2, 5, 8) -/

/-- Componentwise comparison of resource amounts. -/
def ResLE (a b : Resources) : Prop := a.cpu ≤ b.cpu ∧ a.gpu ≤ b.gpu

instance (a b : Resources) : Decidable (ResLE a b) :=
  inferInstanceAs (Decidable (a.cpu ≤ b.cpu ∧ a.gpu ≤ b.gpu))

/-- The total resources held by the currently RUNNING trials, summed
componentwise over the (trial id, resource request) pairs. -/
def usedResources (running : List (Nat × Resources)) : Resources :=
  ⟨(running.map fun p => p.2.cpu).sum, (running.map fun p => p.2.gpu).sum⟩

/-- Modelled from the spec: the Trial Executor's scheduling state. The
available amount is what the Backend Adapter reported at submission
time; trials wait in the queue until they fit and hold resources while
RUNNING. -/
structure SchedState where
  available : Resources
  running : List (Nat × Resources)
  queued : List (Nat × Resources)

/-- Modelled from the spec: the scheduling step relation. New trials are
appended to the queue; the head of the queue is launched only when its
request fits in the reported availability next to everything already
RUNNING (excess trials stay queued rather than overcommit); a RUNNING
trial that reaches a terminal state releases its resources. -/
inductive SchedStep : SchedState → SchedState → Prop where
  | submit (s : SchedState) (t : Nat × Resources) :
      SchedStep s ⟨s.available, s.running, s.queued ++ [t]⟩
  | launch (s : SchedState) (t : Nat × Resources)
      (rest : List (Nat × Resources)) (hq : s.queued = t :: rest)
      (hfit : (usedResources s.running).cpu + t.2.cpu ≤ s.available.cpu ∧
        (usedResources s.running).gpu + t.2.gpu ≤ s.available.gpu) :
      SchedStep s ⟨s.available, t :: s.running, rest⟩
  | complete (s : SchedState) (t : Nat × Resources) (ht : t ∈ s.running) :
      SchedStep s ⟨s.available, s.running.erase t, s.queued⟩

/-- The executor's initial scheduling state: nothing RUNNING yet. -/
def initState (avail : Resources) (queue : List (Nat × Resources)) :
    SchedState :=
  ⟨avail, [], queue⟩

theorem sum_le_sum_of_sublist {l1 l2 : List Nat} (h : l1.Sublist l2) :
    l1.sum ≤ l2.sum := by
  induction h with
  | slnil => exact Nat.le_refl 0
  | cons a _ ih => exact Nat.le_trans ih (by simp)
  | cons₂ a _ ih => simpa using ih

theorem usedResources_erase_le (running : List (Nat × Resources))
    (t : Nat × Resources) :
    ResLE (usedResources (running.erase t)) (usedResources running) := by
  have hsub : (running.erase t).Sublist running := List.erase_sublist t running
  constructor
  · exact sum_le_sum_of_sublist ((hsub.map fun p => p.2.cpu))
  · exact sum_le_sum_of_sublist ((hsub.map fun p => p.2.gpu))

/-- C5: resource accounting is a reachable-state invariant of the
scheduling step relation. In every state reachable from an initial
state, the componentwise sum of resources held by RUNNING trials never
exceeds the availability the Backend Adapter reported at submission
time: excess trials wait in the queue instead of overcommitting. -/
theorem resource_accounting (avail : Resources)
    (queue : List (Nat × Resources)) (s : SchedState)
    (h : Relation.ReflTransGen SchedStep (initState avail queue) s) :
    ResLE (usedResources s.running) s.available := by
  induction h with
  | refl => exact ⟨Nat.zero_le _, Nat.zero_le _⟩
  | tail _ hstep ih =>
    cases hstep with
    | submit t => exact ih
    | launch t rest hq hfit =>
      refine ⟨?_, ?_⟩
      · simpa [usedResources, Nat.add_comm] using hfit.1
      · simpa [usedResources, Nat.add_comm] using hfit.2
    | complete t ht =>
      exact ⟨Nat.le_trans (usedResources_erase_le _ t).1 ih.1,
        Nat.le_trans (usedResources_erase_le _ t).2 ih.2⟩

/-- Witness for C5: launching a 2-CPU trial from the queue under a
4-CPU availability is a reachable step, and the invariant holds in the
resulting state. -/
theorem resource_accounting_witness :
    Relation.ReflTransGen SchedStep (initState ⟨4, 0⟩ [(0, ⟨2, 0⟩)])
      ⟨⟨4, 0⟩, [(0, ⟨2, 0⟩)], []⟩ ∧
    ResLE (usedResources [(0, ⟨2, 0⟩)]) ⟨4, 0⟩ :=
  have hstep : SchedStep (initState ⟨4, 0⟩ [(0, ⟨2, 0⟩)])
      ⟨⟨4, 0⟩, [(0, ⟨2, 0⟩)], []⟩ :=
    SchedStep.launch (initState ⟨4, 0⟩ [(0, ⟨2, 0⟩)]) (0, ⟨2, 0⟩) [] rfl
      (by decide)
  ⟨Relation.ReflTransGen.single hstep,
    resource_accounting ⟨4, 0⟩ [(0, ⟨2, 0⟩)] ⟨⟨4, 0⟩, [(0, ⟨2, 0⟩)], []⟩
      (Relation.ReflTransGen.single hstep)⟩

/-! ## Cancellation (spec sections 5, 7, 8) -/

/-- Modelled from the spec: on cancellation an in-flight trial is
requested to stop and moves to STOPPED; an already-terminal trial is
left exactly as it is. -/
def stopInFlight (t : Trial) (time : Nat) : Trial :=
  if t.state.isTerminal then t
  else { t with state := .STOPPED, endTime := some time }

/-- Modelled from the spec: cancellation is a controlled shutdown. Every
launched trial is driven to a terminal state (in-flight ones stopped,
terminal ones untouched) and the results are aggregated and persisted;
trials never launched contribute nothing. -/
def cancelSearch (g : SearchGoal) (launched : List Trial) (time : Nat) :
    ExecutionResult :=
  aggregate g (launched.map fun t => stopInFlight t time) time

theorem stopInFlight_isTerminal (t : Trial) (time : Nat) :
    (stopInFlight t time).state.isTerminal = true := by
  unfold stopInFlight
  by_cases h : t.state.isTerminal = true
  · rw [if_pos h]
    exact h
  · rw [if_neg h]
    rfl

theorem stopInFlight_id (t : Trial) (time : Nat) :
    (stopInFlight t time).id = t.id := by
  unfold stopInFlight
  by_cases h : t.state.isTerminal = true
  · rw [if_pos h]
  · rw [if_neg h]

/-- C7: cancellation never discards completed work. The persisted record
covers exactly the launched trials (same count, and every entry's id
comes from a launched trial, so never-launched trials contribute no
entries); every already-terminal trial appears in the record unchanged;
all entries are terminal (in-flight ones were requested to stop); and
the record is ranked correctly by the aggregator order. -/
theorem cancellation_preserves_results (g : SearchGoal)
    (launched : List Trial) (time : Nat) :
    (cancelSearch g launched time).rankedTrials.length = launched.length ∧
    (∀ t ∈ (cancelSearch g launched time).rankedTrials,
      ∃ u ∈ launched, t.id = u.id) ∧
    (∀ u ∈ launched, u.state.isTerminal = true →
      u ∈ (cancelSearch g launched time).rankedTrials) ∧
    (∀ t ∈ (cancelSearch g launched time).rankedTrials,
      t.state.isTerminal = true) ∧
    (cancelSearch g launched time).rankedTrials.Sorted (RankLE g) := by
  simp only [cancelSearch, aggregate]
  refine ⟨?_, ?_, ?_, ?_, rankTrials_sorted g _⟩
  · rw [(rankTrials_perm g _).length_eq]
    simp
  · intro t ht
    obtain ⟨u, hu, rfl⟩ :=
      List.mem_map.mp ((rankTrials_perm g _).mem_iff.mp ht)
    exact ⟨u, hu, stopInFlight_id u time⟩
  · intro u hu hterm
    apply (rankTrials_perm g _).mem_iff.mpr
    apply List.mem_map.mpr
    refine ⟨u, hu, ?_⟩
    unfold stopInFlight
    rw [if_pos hterm]
  · intro t ht
    obtain ⟨u, _, rfl⟩ :=
      List.mem_map.mp ((rankTrials_perm g _).mem_iff.mp ht)
    exact stopInFlight_isTerminal u time

/-- Launched trials for the C7 witness: 10 trials, of which the first 3
completed with a metric and the rest are still RUNNING when
cancellation arrives. -/
def exLaunched : List Trial :=
  (List.range 10).map fun i =>
    if i < 3 then
      { id := i, params := [], resources := ⟨1, 0⟩, state := .SUCCEEDED,
        startTime := some i, endTime := some (i + 1),
        metric := some ((i : ℚ) + 1), error := none }
    else
      { id := i, params := [], resources := ⟨1, 0⟩, state := .RUNNING,
        startTime := some i, endTime := none, metric := none, error := none }

/-- The first completed trial of the C7 witness scenario. -/
def exCompleted : Trial :=
  { id := 0, params := [], resources := ⟨1, 0⟩, state := .SUCCEEDED,
    startTime := some 0, endTime := some 1, metric := some 1, error := none }

/-- Witness for C7: in the 10-trial scenario with 3 completed, a
completed trial is launched and terminal, and cancellation keeps it,
unchanged, in the persisted record. -/
theorem cancellation_preserves_results_witness :
    (exCompleted ∈ exLaunched ∧ exCompleted.state.isTerminal = true) ∧
    exCompleted ∈ (cancelSearch exGoal exLaunched 99).rankedTrials := by
  have hmem : exCompleted ∈ exLaunched := by
    unfold exLaunched
    refine List.mem_map.mpr ⟨0, by simp, by norm_num [exCompleted]⟩
  exact ⟨⟨hmem, rfl⟩,
    (cancellation_preserves_results exGoal exLaunched 99).2.2.1 exCompleted
      hmem rfl⟩

/-! ## Per-strategy parameter-kind validation (spec sections 4.1, 9) -/

/-- Modelled from the spec: which parameter kinds a delegated search
algorithm supports. The bohb search algorithm does not support
grid-type entries; the spec names no other unsupported pairing. -/
def algSupports (alg : String) (d : ParamDist) : Bool :=
  match alg, d with
  | "bohb", .grid _ => false
  | _, _ => true

/-- Modelled from the spec: setup of a delegated search strategy
validates the whole space first and fails fast with a configuration
error when any parameter's kind is unsupported, rather than silently
dropping it. -/
def setupDelegated (alg : String) (space : List (String × ParamDist)) :
    Except String Unit :=
  if space.all fun p => algSupports alg p.2 then .ok ()
  else .error ("unsupported parameter kind for search algorithm " ++ alg)

/-- Modelled from the spec: a delegated search runs only after setup
validation succeeds; a setup error is returned before any trial
launches. -/
def runDelegatedSearch (alg : String) (space : List (String × ParamDist))
    (g : SearchGoal) (train : Nat → List (String × ℚ) → Except String ℚ)
    (configs : List (List (String × ℚ))) : Except String ExecutionResult :=
  match setupDelegated alg space with
  | .error e => .error e
  | .ok _ => .ok (runSearch g train configs)

/-- C8: when the parameter space contains a kind the delegated search
algorithm does not support, setup fails fast with a configuration error
and no report is ever produced, so no trial launches; conversely, when
every kind is supported the search proceeds normally, so the parameter
is never silently dropped. -/
theorem unsupported_kind_fails_fast (alg : String)
    (space : List (String × ParamDist)) (g : SearchGoal)
    (train : Nat → List (String × ℚ) → Except String ℚ)
    (configs : List (List (String × ℚ))) :
    ((∃ p ∈ space, algSupports alg p.2 = false) →
      (∃ e, runDelegatedSearch alg space g train configs = .error e) ∧
      ∀ r, runDelegatedSearch alg space g train configs ≠ .ok r) ∧
    ((∀ p ∈ space, algSupports alg p.2 = true) →
      runDelegatedSearch alg space g train configs =
        .ok (runSearch g train configs)) := by
  constructor
  · intro hbad
    have hall : (space.all fun p => algSupports alg p.2) = false := by
      rw [List.all_eq_false]
      obtain ⟨p, hp, hf⟩ := hbad
      exact ⟨p, hp, by simp [hf]⟩
    simp only [runDelegatedSearch, setupDelegated, hall, if_false,
      Bool.false_eq_true]
    exact ⟨⟨_, rfl⟩, fun r h => by cases h⟩
  · intro hgood
    have hall : (space.all fun p => algSupports alg p.2) = true := by
      rw [List.all_eq_true]
      exact hgood
    simp [runDelegatedSearch, setupDelegated, hall]

/-- The C8 witness space: the test grid entry combiner.num_steps with
values 3, 4, 5 alongside continuous parameters. -/
def exGridSpace : List (String × ParamDist) :=
  [("training.learning_rate", .loguniform (1 / 1000) (1 / 10)),
   ("combiner.num_steps", .grid [3, 4, 5])]

/-- Witness for C8: the bohb search algorithm given a space with a
grid-type entry fails at setup with a configuration error. -/
theorem unsupported_kind_fails_fast_witness :
    ∃ e, runDelegatedSearch "bohb" exGridSpace exGoal exTrainAllFail [] =
      .error e :=
  ((unsupported_kind_fails_fast "bohb" exGridSpace exGoal exTrainAllFail []).1
    ⟨("combiner.num_steps", .grid [3, 4, 5]), by decide, rfl⟩).1

/-! ## Serialization of the ExecutionResult artifact (spec sections 4.3, 6) -/

/-- A JSON value, the shape of the persisted hyperopt statistics
artifact. -/
inductive Json where
  | null
  | bool (b : Bool)
  | num (q : ℚ)
  | str (s : String)
  | arr (items : List Json)
  | obj (fields : List (String × Json))

/-- Look up a field of a JSON object. -/
def getField (j : Json) (key : String) : Option Json :=
  match j with
  | .obj fields => fields.lookup key
  | _ => none

def encodeOptNum : Option ℚ → Json
  | none => .null
  | some q => .num q

def encodeOptNat : Option Nat → Json
  | none => .null
  | some n => .num (n : ℚ)

def encodeOptStr : Option String → Json
  | none => .null
  | some s => .str s

def encodeState : TrialState → Json
  | .PENDING => .str "PENDING"
  | .RUNNING => .str "RUNNING"
  | .SUCCEEDED => .str "SUCCEEDED"
  | .FAILED => .str "FAILED"
  | .STOPPED => .str "STOPPED"

def encodeDirection : Direction → Json
  | .minimize => .str "minimize"
  | .maximize => .str "maximize"

def encodeParams (ps : List (String × ℚ)) : Json :=
  .obj (ps.map fun p => (p.1, .num p.2))

/-- Modelled from the spec: one ranked-list entry of the artifact,
carrying the trial's parameters, metric value, trial id, timestamps
(hence duration), state and error. -/
def encodeTrial (t : Trial) : Json :=
  .obj [("trial_id", .num (t.id : ℚ)),
        ("parameters", encodeParams t.params),
        ("cpu", .num (t.resources.cpu : ℚ)),
        ("gpu", .num (t.resources.gpu : ℚ)),
        ("state", encodeState t.state),
        ("start_time", encodeOptNat t.startTime),
        ("end_time", encodeOptNat t.endTime),
        ("metric", encodeOptNum t.metric),
        ("error", encodeOptStr t.error)]

def encodeGoal (g : SearchGoal) : Json :=
  .obj [("direction", encodeDirection g.direction),
        ("metric", .str g.metric),
        ("output_feature", .str g.outputFeature)]

/-- Modelled from the spec: the persisted hyperopt statistics artifact,
the ranked trial list plus summary metadata (goal, best trial id, total
elapsed time, warning flag). -/
def serializeResult (r : ExecutionResult) : Json :=
  .obj [("ranked", .arr (r.rankedTrials.map encodeTrial)),
        ("goal", encodeGoal r.goal),
        ("best_trial_id", encodeOptNat r.bestTrialId),
        ("elapsed_time", .num (r.elapsedTime : ℚ)),
        ("warning", .bool r.warning)]

def decodeNum : Json → Option ℚ
  | .num q => some q
  | _ => none

def decodeStr : Json → Option String
  | .str s => some s
  | _ => none

def decodeBool : Json → Option Bool
  | .bool b => some b
  | _ => none

def decodeNat (j : Json) : Option Nat :=
  match j with
  | .num q => if q.den = 1 ∧ 0 ≤ q.num then some q.num.toNat else none
  | _ => none

def decodeOpt {α : Type} (f : Json → Option α) (j : Json) : Option (Option α) :=
  match j with
  | .null => some none
  | _ => (f j).map some

def decodeState : Json → Option TrialState
  | .str "PENDING" => some .PENDING
  | .str "RUNNING" => some .RUNNING
  | .str "SUCCEEDED" => some .SUCCEEDED
  | .str "FAILED" => some .FAILED
  | .str "STOPPED" => some .STOPPED
  | _ => none

def decodeDirection : Json → Option Direction
  | .str "minimize" => some .minimize
  | .str "maximize" => some .maximize
  | _ => none

def decodePairsNum : List (String × Json) → Option (List (String × ℚ))
  | [] => some []
  | (k, v) :: rest =>
      match decodeNum v, decodePairsNum rest with
      | some q, some tail => some ((k, q) :: tail)
      | _, _ => none

def decodeParams (j : Json) : Option (List (String × ℚ)) :=
  match j with
  | .obj fields => decodePairsNum fields
  | _ => none

/-- Read one ranked-list entry back from the artifact. -/
def decodeTrial (j : Json) : Option Trial :=
  (getField j "trial_id").bind fun jid => (decodeNat jid).bind fun tid =>
  (getField j "parameters").bind fun jp => (decodeParams jp).bind fun ps =>
  (getField j "cpu").bind fun jc => (decodeNat jc).bind fun cpu =>
  (getField j "gpu").bind fun jg => (decodeNat jg).bind fun gpu =>
  (getField j "state").bind fun js => (decodeState js).bind fun st =>
  (getField j "start_time").bind fun j0 => (decodeOpt decodeNat j0).bind fun t0 =>
  (getField j "end_time").bind fun j1 => (decodeOpt decodeNat j1).bind fun t1 =>
  (getField j "metric").bind fun jm => (decodeOpt decodeNum jm).bind fun m =>
  (getField j "error").bind fun je => (decodeOpt decodeStr je).map fun e =>
  ⟨tid, ps, ⟨cpu, gpu⟩, st, t0, t1, m, e⟩

def decodeTrials : List Json → Option (List Trial)
  | [] => some []
  | x :: xs =>
      match decodeTrial x, decodeTrials xs with
      | some t, some ts => some (t :: ts)
      | _, _ => none

def decodeTrialList (j : Json) : Option (List Trial) :=
  match j with
  | .arr items => decodeTrials items
  | _ => none

def decodeGoal (j : Json) : Option SearchGoal :=
  (getField j "direction").bind fun jd => (decodeDirection jd).bind fun d =>
  (getField j "metric").bind fun jm => (decodeStr jm).bind fun m =>
  (getField j "output_feature").bind fun jf => (decodeStr jf).map fun f =>
  ⟨d, m, f⟩

/-- Read the whole artifact back into an ExecutionResult. -/
def deserializeResult (j : Json) : Option ExecutionResult :=
  (getField j "ranked").bind fun jr => (decodeTrialList jr).bind fun ts =>
  (getField j "goal").bind fun jg => (decodeGoal jg).bind fun g =>
  (getField j "best_trial_id").bind fun jb =>
    (decodeOpt decodeNat jb).bind fun best =>
  (getField j "elapsed_time").bind fun jt => (decodeNat jt).bind fun elapsed =>
  (getField j "warning").bind fun jw => (decodeBool jw).map fun w =>
  ⟨ts, g, best, elapsed, w⟩

theorem decodeNat_natCast (n : Nat) : decodeNat (.num (n : ℚ)) = some n := by
  simp [decodeNat]

theorem decodeOptNum_encode (m : Option ℚ) :
    decodeOpt decodeNum (encodeOptNum m) = some m := by
  cases m <;> rfl

theorem decodeOptNat_encode (m : Option Nat) :
    decodeOpt decodeNat (encodeOptNat m) = some m := by
  cases m with
  | none => rfl
  | some n => simp [encodeOptNat, decodeOpt, decodeNat_natCast]

theorem decodeOptStr_encode (m : Option String) :
    decodeOpt decodeStr (encodeOptStr m) = some m := by
  cases m <;> rfl

theorem decodeState_encode (s : TrialState) :
    decodeState (encodeState s) = some s := by
  cases s <;> rfl

theorem decodeDirection_encode (d : Direction) :
    decodeDirection (encodeDirection d) = some d := by
  cases d <;> rfl

theorem decodeParams_encode (ps : List (String × ℚ)) :
    decodeParams (encodeParams ps) = some ps := by
  simp only [decodeParams, encodeParams]
  induction ps with
  | nil => rfl
  | cons p rest ih => simp [decodePairsNum, decodeNum, ih]

theorem getField_trial_id (t : Trial) :
    getField (encodeTrial t) "trial_id" = some (.num (t.id : ℚ)) := rfl

theorem getField_parameters (t : Trial) :
    getField (encodeTrial t) "parameters" = some (encodeParams t.params) := rfl

theorem getField_cpu (t : Trial) :
    getField (encodeTrial t) "cpu" = some (.num (t.resources.cpu : ℚ)) := rfl

theorem getField_gpu (t : Trial) :
    getField (encodeTrial t) "gpu" = some (.num (t.resources.gpu : ℚ)) := rfl

theorem getField_state (t : Trial) :
    getField (encodeTrial t) "state" = some (encodeState t.state) := rfl

theorem getField_start_time (t : Trial) :
    getField (encodeTrial t) "start_time" = some (encodeOptNat t.startTime) := rfl

theorem getField_end_time (t : Trial) :
    getField (encodeTrial t) "end_time" = some (encodeOptNat t.endTime) := rfl

theorem getField_metric (t : Trial) :
    getField (encodeTrial t) "metric" = some (encodeOptNum t.metric) := rfl

theorem getField_error (t : Trial) :
    getField (encodeTrial t) "error" = some (encodeOptStr t.error) := rfl

theorem decodeTrial_encode (t : Trial) : decodeTrial (encodeTrial t) = some t := by
  simp only [decodeTrial, getField_trial_id, getField_parameters, getField_cpu,
    getField_gpu, getField_state, getField_start_time, getField_end_time,
    getField_metric, getField_error, Option.some_bind, decodeNat_natCast,
    decodeParams_encode, decodeState_encode, decodeOptNat_encode,
    decodeOptNum_encode, decodeOptStr_encode, Option.map_some]
  rfl

theorem decodeTrials_encode (ts : List Trial) :
    decodeTrials (ts.map encodeTrial) = some ts := by
  induction ts with
  | nil => rfl
  | cons t rest ih => simp [decodeTrials, decodeTrial_encode, ih]

theorem getField_goal_direction (g : SearchGoal) :
    getField (encodeGoal g) "direction" = some (encodeDirection g.direction) := rfl

theorem getField_goal_metric (g : SearchGoal) :
    getField (encodeGoal g) "metric" = some (.str g.metric) := rfl

theorem getField_goal_output (g : SearchGoal) :
    getField (encodeGoal g) "output_feature" = some (.str g.outputFeature) := rfl

theorem decodeGoal_encode (g : SearchGoal) : decodeGoal (encodeGoal g) = some g := by
  simp only [decodeGoal, getField_goal_direction, getField_goal_metric,
    getField_goal_output, Option.some_bind, decodeDirection_encode, decodeStr,
    Option.map_some]
  rfl

theorem getField_ranked (r : ExecutionResult) :
    getField (serializeResult r) "ranked" =
      some (.arr (r.rankedTrials.map encodeTrial)) := rfl

theorem getField_result_goal (r : ExecutionResult) :
    getField (serializeResult r) "goal" = some (encodeGoal r.goal) := rfl

theorem getField_best_trial_id (r : ExecutionResult) :
    getField (serializeResult r) "best_trial_id" =
      some (encodeOptNat r.bestTrialId) := rfl

theorem getField_elapsed_time (r : ExecutionResult) :
    getField (serializeResult r) "elapsed_time" =
      some (.num (r.elapsedTime : ℚ)) := rfl

theorem getField_warning (r : ExecutionResult) :
    getField (serializeResult r) "warning" = some (.bool r.warning) := rfl

/-- C6: serializing an ExecutionResult to the persisted JSON artifact
and deserializing it back yields the same ExecutionResult: the ranked
sequence and all summary metadata (goal, best trial id, elapsed time,
warning flag) round-trip exactly. -/
theorem execution_result_roundtrip (r : ExecutionResult) :
    deserializeResult (serializeResult r) = some r := by
  simp only [deserializeResult, getField_ranked, getField_result_goal,
    getField_best_trial_id, getField_elapsed_time, getField_warning,
    Option.some_bind, decodeTrialList, decodeTrials_encode,
    decodeGoal_encode, decodeOptNat_encode, decodeNat_natCast, decodeBool,
    Option.map_some]
  rfl

/-! ## ATIS example script (examples/atis/train.py) -/

/-- The process-wide random generator seeds the script manipulates:
torch, Python random, and NumPy. -/
structure GlobalRNG where
  torch : Nat
  python : Nat
  numpy : Nat
deriving DecidableEq, Repr

/-- torch.manual_seed: overwrite the torch generator seed. -/
def torchManualSeed (s : Nat) (g : GlobalRNG) : GlobalRNG :=
  { g with torch := s }

/-- random.seed: overwrite the Python random generator seed. -/
def pythonRandomSeed (s : Nat) (g : GlobalRNG) : GlobalRNG :=
  { g with python := s }

/-- np.random.seed: overwrite the NumPy generator seed. -/
def npRandomSeed (s : Nat) (g : GlobalRNG) : GlobalRNG :=
  { g with numpy := s }

/-- The dataset path hard-coded in examples/atis/train.py. -/
def atisDataset : String := "/home/tanl/data/atis_intents_train.csv"

/-- examples/atis/train.py as a state-passing program: it seeds torch,
Python random and NumPy with the constant 0 (lines 9-11), in that order,
before constructing the model and training; model construction and
training are abstracted as a function of the global generator state and
the dataset path. -/
def runAtisScript {α : Type} (train : GlobalRNG → String → α) (g0 : GlobalRNG) : α :=
  let g1 := torchManualSeed 0 g0
  let g2 := pythonRandomSeed 0 g1
  let g3 := npRandomSeed 0 g2
  train g3 atisDataset

/-- C10: the ATIS training script seeds torch, Python random, and NumPy
with the constant 0 before constructing or training the model, so any
two runs of the script draw identical random streams and behave
identically: the outcome is independent of the initial global generator
state, and equals training from the all-zero seed state on the fixed
dataset path. -/
theorem atis_two_run_determinism {α : Type} (train : GlobalRNG → String → α)
    (g g' : GlobalRNG) :
    runAtisScript train g = runAtisScript train g' ∧
    runAtisScript train g = train ⟨0, 0, 0⟩ atisDataset := by
  constructor <;> rfl

/-- C9: every Trial follows the state machine PENDING to RUNNING to one
of SUCCEEDED, FAILED, STOPPED. A freshly created trial is PENDING; every
executor operation either leaves the trial unchanged or moves it along
an edge of the machine (so the three outcomes are terminal and no other
transition occurs); and once a trial is terminal no operation changes
any of its fields. -/
theorem trial_state_machine :
    (∀ id params res, (newTrial id params res).state = .PENDING) ∧
    (∀ op t, applyOp op t = t ∨
      AllowedTransition t.state (applyOp op t).state) ∧
    (∀ op t, t.state.isTerminal = true → applyOp op t = t) := by
  refine ⟨fun id params res => rfl, ?_, ?_⟩
  · intro op t
    cases op <;> cases hs : t.state <;>
      simp [applyOp, startTrial, completeTrial, failTrial, stopTrial, hs,
        AllowedTransition]
  · intro op t ht
    cases op <;> cases hs : t.state <;>
      simp_all [applyOp, startTrial, completeTrial, failTrial, stopTrial,
        TrialState.isTerminal]

/-- Witness for C9: the concrete run start-then-complete of a fresh trial
follows the machine, and a completed (terminal) trial is unchanged by a
further stop operation. -/
theorem trial_state_machine_witness :
    applyOp (.stop 9) (applyOp (.complete 1 5) (applyOp (.start 2)
      (newTrial 0 [] ⟨1, 0⟩))) =
      applyOp (.complete 1 5) (applyOp (.start 2) (newTrial 0 [] ⟨1, 0⟩)) := by
  have h := trial_state_machine
  exact h.2.2 (.stop 9)
    (applyOp (.complete 1 5) (applyOp (.start 2) (newTrial 0 [] ⟨1, 0⟩)))
    (by decide)
